import Mathlib

/-!
Formal model of the scaled dot-product (QKV) attention exercise notebook
(C4_W1_Ungraded_Lab_2_QKV_Attention.ipynb).

The notebook defines, over numpy 2-D float arrays:
  - tokenize(sentence, token_mapping): lowercases, splits on single spaces,
    looks each word up in a dictionary, and uses -1 for unknown words;
  - embed(tokens, embeddings): builds a (len(tokens), embed_size) matrix,
    an all-zero row for token -1, otherwise the row embeddings[token];
  - softmax(x, axis): np.exp(x) divided by the sum of np.exp(x) along the
    axis (always called with axis=1, i.e. row-wise normalisation);
  - calculate_weights(queries, keys): the filled-in lab version computes
    softmax(np.dot(queries, keys.T), axis=1) with NO division by sqrt(d),
    then asserts that row 0 of the result sums to 1;
  - the reference solution of the same function (Solutions section of the
    notebook) computes softmax(np.matmul(queries, keys.T)/np.sqrt(keys.shape[1]), axis=1);
  - attention_qkv(queries, keys, values): np.dot(calculate_weights(queries, keys), values).

Matrices are modelled over the exact reals: a shape (rows, cols) plus a
total entry function (entries outside the shape are irrelevant).  Failures
that numpy or Python raise as exceptions (ValueError from a dimension
mismatch in np.dot, IndexError from indexing an empty array or from an
out-of-range embedding lookup, AssertionError from a failed assert) are
modelled as values of an error type carried by Except.
-/

namespace QKV

/-- A numpy 2-D array of float64, modelled over the exact reals: an explicit
shape together with a total entry function.  Entries at indices outside the
shape are junk and never observed by in-shape reasoning. -/
@[ext]
structure NpMat where
  rows : ℕ
  cols : ℕ
  entry : ℕ → ℕ → ℝ

/-- The Python exceptions the notebook code can raise: ValueError (np.dot
shape mismatch), IndexError (indexing an empty or out-of-range array), and
AssertionError (the assert in calculate_weights).  The spec's error
taxonomy maps ShapeMismatch to valueError and EmptyInput to the
indexError/assertionError raised on zero-row inputs. -/
inductive PyError where
  | valueError
  | indexError
  | assertionError
deriving DecidableEq

/-- Transpose, modelling keys.T. -/
def NpMat.T (A : NpMat) : NpMat :=
  ⟨A.cols, A.rows, fun i j => A.entry j i⟩

/-- Multiplication of every entry by a scalar (used to scale whole input
matrices for the scale-invariance property). -/
noncomputable def NpMat.smul (c : ℝ) (A : NpMat) : NpMat :=
  ⟨A.rows, A.cols, fun i j => c * A.entry i j⟩

/-- Sum of row i of a matrix, modelling A.sum(axis=1)[i]. -/
noncomputable def NpMat.rowSum (A : NpMat) (i : ℕ) : ℝ :=
  ∑ j ∈ Finset.range A.cols, A.entry i j

/-- np.dot on 2-D arrays: matrix product when the inner dimensions agree,
ValueError otherwise (numpy raises the mismatch before looking at row
counts, so this fires even for zero-row operands). -/
noncomputable def npDot (A B : NpMat) : Except PyError NpMat :=
  if A.cols = B.rows then
    .ok ⟨A.rows, B.cols, fun i j => ∑ k ∈ Finset.range A.cols, A.entry i k * B.entry k j⟩
  else .error .valueError

/-- Division of every entry by a scalar, modelling dot/np.sqrt(keys.shape[1]). -/
noncomputable def npDivScalar (A : NpMat) (c : ℝ) : NpMat :=
  ⟨A.rows, A.cols, fun i j => A.entry i j / c⟩

/-- The notebook softmax at axis=1, as both the lab cell and the reference
solution compute it for a 2-D array x:
np.exp(x)/np.expand_dims(np.sum(np.exp(x), axis=1), 1).  Entry (i, j) is
exp(x i j) divided by the sum of exp over row i.  No row-maximum is
subtracted before exponentiating. -/
noncomputable def softmax (X : NpMat) : NpMat :=
  ⟨X.rows, X.cols, fun i j =>
    Real.exp (X.entry i j) / ∑ k ∈ Finset.range X.cols, Real.exp (X.entry i k)⟩

/-- The line assert weights.sum(axis=1)[0] == 1 of calculate_weights:
indexing [0] raises IndexError when weights has zero rows; otherwise the
assert raises AssertionError when row 0 does not sum to 1 and returns the
weights unchanged when it does. -/
noncomputable def checkAssert (W : NpMat) : Except PyError NpMat :=
  if W.rows = 0 then .error .indexError
  else if W.rowSum 0 = 1 then .ok W else .error .assertionError

/-- The filled-in lab calculate_weights (executed code cell):
dot = np.dot(queries, keys.T); weights = softmax(dot, axis=1);
assert weights.sum(axis=1)[0] == 1; return weights.
Note the absence of any division by sqrt(d). -/
noncomputable def calculate_weights (queries keys : NpMat) : Except PyError NpMat :=
  match npDot queries (NpMat.T keys) with
  | .error e => .error e
  | .ok dot => checkAssert (softmax dot)

/-- The reference-solution calculate_weights (Solutions section):
dot = np.matmul(queries, keys.T)/np.sqrt(keys.shape[1]);
weights = softmax(dot, axis=1); assert weights.sum(axis=1)[0] == 1;
return weights. -/
noncomputable def calculate_weights_sol (queries keys : NpMat) : Except PyError NpMat :=
  match npDot queries (NpMat.T keys) with
  | .error e => .error e
  | .ok dot => checkAssert (softmax (npDivScalar dot (Real.sqrt keys.cols)))

/-- The lab attention_qkv (executed code cell):
weights = calculate_weights(queries, keys); return np.dot(weights, values). -/
noncomputable def attention_qkv (queries keys values : NpMat) : Except PyError NpMat :=
  match calculate_weights queries keys with
  | .error e => .error e
  | .ok weights => npDot weights values

/-- Written from the spec, for comparison with the code: the weights equal
softmax((Q Kᵀ)/sqrt d) row-wise, with d the query/key feature dimension:
entry (i, j) is exp(score i j) over the sum of exp(score i k) for k below
the key count, where score i j = (sum over l below d of Q i l * K j l)/sqrt d. -/
noncomputable def specWeights (Q K : NpMat) : NpMat :=
  ⟨Q.rows, K.rows, fun i j =>
    Real.exp ((∑ l ∈ Finset.range Q.cols, Q.entry i l * K.entry j l) / Real.sqrt Q.cols) /
      ∑ k ∈ Finset.range K.rows,
        Real.exp ((∑ l ∈ Finset.range Q.cols, Q.entry i l * K.entry k l) / Real.sqrt Q.cols)⟩

/-- Model of Python str.lower applied to one character, for the ASCII
letters the notebook data exercises; every other character is unchanged. -/
def lowerChar (c : Char) : Char :=
  if c = 'A' then 'a' else if c = 'B' then 'b' else if c = 'C' then 'c' else
  if c = 'D' then 'd' else if c = 'E' then 'e' else if c = 'F' then 'f' else
  if c = 'G' then 'g' else if c = 'H' then 'h' else if c = 'I' then 'i' else
  if c = 'J' then 'j' else if c = 'K' then 'k' else if c = 'L' then 'l' else
  if c = 'M' then 'm' else if c = 'N' then 'n' else if c = 'O' then 'o' else
  if c = 'P' then 'p' else if c = 'Q' then 'q' else if c = 'R' then 'r' else
  if c = 'S' then 's' else if c = 'T' then 't' else if c = 'U' then 'u' else
  if c = 'V' then 'v' else if c = 'W' then 'w' else if c = 'X' then 'x' else
  if c = 'Y' then 'y' else if c = 'Z' then 'z' else c

/-- Model of Python sentence.lower(): lowercase character by character. -/
def pyLower (s : String) : String :=
  String.mk (s.data.map lowerChar)

/-- Split a character list at every single space character, keeping empty
words, exactly as Python str.split(" ") does on the underlying text. -/
def splitChars : List Char → List (List Char)
  | [] => [[]]
  | c :: cs =>
    match splitChars cs with
    | [] => [[]]
    | w :: ws => if c = ' ' then [] :: w :: ws else (c :: w) :: ws

/-- Model of Python sentence.split(" "): split on each single space,
keeping empty strings between consecutive separators. -/
def pySplit (s : String) : List String :=
  (splitChars s.data).map fun w => String.mk w

/-- The notebook tokenize: lowercase the sentence, split it on spaces, and
map each word through the token_mapping dictionary (modelled as an
association list), appending -1 for a word the dictionary lacks (the
KeyError branch). -/
def tokenize (sentence : String) (token_mapping : List (String × ℤ)) : List ℤ :=
  (pySplit (pyLower sentence)).map fun word =>
    match token_mapping.lookup word with
    | some tok => tok
    | none => -1

/-- Python list indexing with a possibly negative index, as
embeddings[token] resolves it: negative indices count from the end. -/
def wrapIdx (r : ℕ) (t : ℤ) : ℕ :=
  (if t < 0 then t + (r : ℤ) else t).toNat

/-- A token numpy accepts as a row index of an embedding matrix with r
rows: the sentinel -1 (never used as an index by embed), or an index in
[-r, r).  Any other token makes embeddings[token] raise IndexError. -/
def tokenValid (r : ℕ) (t : ℤ) : Bool :=
  t = -1 || (-(r : ℤ) ≤ t && t < (r : ℤ))

/-- The notebook embed: output = np.zeros((len(tokens), embed_size)); for
each position i, keep the zero row when tokens[i] == -1, else copy the row
embeddings[tokens[i]] (with Python negative-index wrap-around); the loop
raises IndexError as soon as some token is outside the indexable range. -/
noncomputable def embed (tokens : List ℤ) (embeddings : NpMat) : Except PyError NpMat :=
  if tokens.all (tokenValid embeddings.rows) then
    .ok ⟨tokens.length, embeddings.cols, fun i j =>
      match tokens[i]? with
      | some t => if t = -1 then 0 else embeddings.entry (wrapIdx embeddings.rows t) j
      | none => 0⟩
  else .error .indexError

/-! ### General lemmas about the embedded operations -/

theorem npDot_ok (A B : NpMat) (h : A.cols = B.rows) :
    npDot A B =
      .ok ⟨A.rows, B.cols, fun i j => ∑ k ∈ Finset.range A.cols, A.entry i k * B.entry k j⟩ := by
  unfold npDot
  rw [if_pos h]

theorem checkAssert_ok (W : NpMat) (h0 : W.rows ≠ 0) (h1 : W.rowSum 0 = 1) :
    checkAssert W = .ok W := by
  unfold checkAssert
  rw [if_neg h0, if_pos h1]

theorem checkAssert_rows0 (W : NpMat) (h : W.rows = 0) :
    checkAssert W = .error .indexError := by
  unfold checkAssert
  rw [if_pos h]

theorem checkAssert_badsum (W : NpMat) (h0 : W.rows ≠ 0) (h1 : W.rowSum 0 ≠ 1) :
    checkAssert W = .error .assertionError := by
  unfold checkAssert
  rw [if_neg h0, if_neg h1]

theorem softmax_rowSum (X : NpMat) (i : ℕ) (h : 1 ≤ X.cols) :
    (softmax X).rowSum i = 1 := by
  have hne : X.cols ≠ 0 := by omega
  have hpos : (0:ℝ) < ∑ k ∈ Finset.range X.cols, Real.exp (X.entry i k) :=
    Finset.sum_pos (fun k _ => Real.exp_pos _) (Finset.nonempty_range_iff.mpr hne)
  unfold softmax NpMat.rowSum
  rw [← Finset.sum_div]
  exact div_self (ne_of_gt hpos)

theorem softmax_entry_nonneg (X : NpMat) (i j : ℕ) (h : 1 ≤ X.cols) :
    0 ≤ (softmax X).entry i j := by
  have hne : X.cols ≠ 0 := by omega
  have hpos : (0:ℝ) < ∑ k ∈ Finset.range X.cols, Real.exp (X.entry i k) :=
    Finset.sum_pos (fun k _ => Real.exp_pos _) (Finset.nonempty_range_iff.mpr hne)
  unfold softmax
  exact div_nonneg (Real.exp_pos _).le hpos.le

/-- On well-shaped nonempty inputs, the lab calculate_weights succeeds and
returns the softmax of the unscaled score matrix Q Kᵀ. -/
theorem calculate_weights_eq (Q K : NpMat) (hd : Q.cols = K.cols)
    (hm : 1 ≤ Q.rows) (hn : 1 ≤ K.rows) :
    calculate_weights Q K =
      .ok (softmax ⟨Q.rows, K.rows, fun i j =>
        ∑ k ∈ Finset.range Q.cols, Q.entry i k * K.entry j k⟩) := by
  unfold calculate_weights
  rw [npDot_ok Q (NpMat.T K) hd]
  exact checkAssert_ok _ (by simpa [softmax] using by omega)
    (softmax_rowSum _ 0 (by simpa using hn))

/-- On well-shaped nonempty inputs, the reference-solution calculate_weights
succeeds and returns exactly the matrix the spec formula describes. -/
theorem calculate_weights_sol_eq (Q K : NpMat) (hd : Q.cols = K.cols)
    (hm : 1 ≤ Q.rows) (hn : 1 ≤ K.rows) :
    calculate_weights_sol Q K = .ok (specWeights Q K) := by
  unfold calculate_weights_sol
  rw [npDot_ok Q (NpMat.T K) hd]
  show checkAssert _ = _
  have hrw : softmax (npDivScalar
      ⟨Q.rows, (NpMat.T K).cols, fun i j =>
        ∑ k ∈ Finset.range Q.cols, Q.entry i k * (NpMat.T K).entry k j⟩
      (Real.sqrt K.cols)) = specWeights Q K := by
    unfold softmax npDivScalar specWeights NpMat.T
    rw [hd]
  rw [hrw]
  exact checkAssert_ok _ (by simp [specWeights]; omega)
    (by
      have h1 : (specWeights Q K).rowSum 0 = 1 := by
        rw [← hrw]
        exact softmax_rowSum _ 0 (by simpa [npDivScalar] using hn)
      exact h1)

/-- Strict monotonicity of a softmax weight in its own score: used to
separate the scaled and the unscaled weight values. -/
theorem exp_frac_ne {a b : ℝ} (hab : a ≠ b) :
    Real.exp a / (Real.exp a + 1) ≠ Real.exp b / (Real.exp b + 1) := by
  intro h
  apply hab
  have ha : (0:ℝ) < Real.exp a + 1 := by positivity
  have hb : (0:ℝ) < Real.exp b + 1 := by positivity
  rw [div_eq_div_iff ha.ne' hb.ne'] at h
  have h2 : Real.exp a = Real.exp b := by ring_nf at h; linarith
  exact Real.exp_eq_exp.mp h2

theorem sqrt_four : Real.sqrt 4 = 2 := by
  rw [show (4:ℝ) = 2 ^ 2 by norm_num, Real.sqrt_sq (by norm_num : (0:ℝ) ≤ 2)]

/-! ### Claim theorems -/

/-- C2: for every valid input pair (queries m x d and keys n x d with the
same feature dimension and m, n at least 1), calculate_weights succeeds and
returns an m x n matrix in which every row sums to 1 and every entry is
non-negative, i.e. each row is a probability distribution over the n key
positions. -/
theorem calculate_weights_rows_are_distributions (Q K : NpMat)
    (hd : Q.cols = K.cols) (hm : 1 ≤ Q.rows) (hn : 1 ≤ K.rows) :
    ∃ W, calculate_weights Q K = .ok W ∧ W.rows = Q.rows ∧ W.cols = K.rows ∧
      (∀ i, i < W.rows → W.rowSum i = 1) ∧
      (∀ i j, i < W.rows → j < W.cols → 0 ≤ W.entry i j) := by
  refine ⟨_, calculate_weights_eq Q K hd hm hn, rfl, rfl, ?_, ?_⟩
  · intro i _
    exact softmax_rowSum _ i hn
  · intro i j _ _
    exact softmax_entry_nonneg _ i j hn

/-- Witness for C2 at the concrete pair queries = keys = the 1 x 1 zero
matrix. -/
theorem calculate_weights_rows_are_distributions_witness :
    ∃ W, calculate_weights ⟨1, 1, fun _ _ => 0⟩ ⟨1, 1, fun _ _ => 0⟩ = .ok W ∧
      W.rows = 1 ∧ W.cols = 1 ∧
      (∀ i, i < W.rows → W.rowSum i = 1) ∧
      (∀ i j, i < W.rows → j < W.cols → 0 ≤ W.entry i j) :=
  calculate_weights_rows_are_distributions ⟨1, 1, fun _ _ => 0⟩ ⟨1, 1, fun _ _ => 0⟩
    rfl (by decide) (by decide)

/-- C3: calculate_weights aborts with an error and returns no result on the
two invalid-shape conditions: a feature-dimension mismatch raises numpy's
ValueError from np.dot (the spec's ShapeMismatch); with matching feature
dimensions, zero-row queries raise IndexError and zero-row keys raise
AssertionError, both from the assert line (the spec's EmptyInput).  When a
dimension mismatch and a zero-row input occur together, np.dot runs first,
so the shape-mismatch error wins. -/
theorem calculate_weights_error_cases (Q K : NpMat) :
    (Q.cols ≠ K.cols → calculate_weights Q K = .error .valueError) ∧
    (Q.cols = K.cols → Q.rows = 0 → calculate_weights Q K = .error .indexError) ∧
    (Q.cols = K.cols → 1 ≤ Q.rows → K.rows = 0 →
      calculate_weights Q K = .error .assertionError) := by
  refine ⟨?_, ?_, ?_⟩
  · intro hne
    have hne2 : ¬(Q.cols = (NpMat.T K).rows) := hne
    have hdot : npDot Q (NpMat.T K) = .error .valueError := by
      unfold npDot
      rw [if_neg hne2]
    unfold calculate_weights
    rw [hdot]
  · intro hd h0
    unfold calculate_weights
    rw [npDot_ok Q (NpMat.T K) hd]
    show checkAssert _ = _
    exact checkAssert_rows0 _ h0
  · intro hd hm h0
    unfold calculate_weights
    rw [npDot_ok Q (NpMat.T K) hd]
    show checkAssert _ = _
    refine checkAssert_badsum _ (show Q.rows ≠ 0 by omega) ?_
    show (∑ j ∈ Finset.range K.rows, _) ≠ (1:ℝ)
    rw [h0]
    simp

/-- Witness for C3: a 1 x 2 against 1 x 3 pair hits the dimension-mismatch
error, a zero-row queries matrix hits the IndexError, and a zero-row keys
matrix hits the AssertionError. -/
theorem calculate_weights_error_cases_witness :
    calculate_weights ⟨1, 2, fun _ _ => 0⟩ ⟨1, 3, fun _ _ => 0⟩ = .error .valueError ∧
    calculate_weights ⟨0, 2, fun _ _ => 0⟩ ⟨1, 2, fun _ _ => 0⟩ = .error .indexError ∧
    calculate_weights ⟨1, 2, fun _ _ => 0⟩ ⟨0, 2, fun _ _ => 0⟩ = .error .assertionError :=
  ⟨(calculate_weights_error_cases ⟨1, 2, fun _ _ => 0⟩ ⟨1, 3, fun _ _ => 0⟩).1 (by decide),
   (calculate_weights_error_cases ⟨0, 2, fun _ _ => 0⟩ ⟨1, 2, fun _ _ => 0⟩).2.1 rfl rfl,
   (calculate_weights_error_cases ⟨1, 2, fun _ _ => 0⟩ ⟨0, 2, fun _ _ => 0⟩).2.2 rfl
     (by decide) rfl⟩

/-- C5: for every valid triple, attention_qkv succeeds and returns exactly
the matrix product of the calculate_weights result with values: an
m x e matrix whose (i, j) entry is the sum over the n key positions of
weight (i, k) times value (k, j); in particular its shape is
(rows of queries, cols of values). -/
theorem attention_qkv_is_weighted_combination (Q K V : NpMat)
    (hd : Q.cols = K.cols) (hm : 1 ≤ Q.rows) (hn : 1 ≤ K.rows) (hv : V.rows = K.rows) :
    ∃ W A, calculate_weights Q K = .ok W ∧ attention_qkv Q K V = .ok A ∧
      A.rows = Q.rows ∧ A.cols = V.cols ∧
      (∀ i j, A.entry i j = ∑ k ∈ Finset.range K.rows, W.entry i k * V.entry k j) := by
  have hW := calculate_weights_eq Q K hd hm hn
  have hA : attention_qkv Q K V = .ok ⟨Q.rows, V.cols, fun i j =>
      ∑ k ∈ Finset.range K.rows,
        (softmax ⟨Q.rows, K.rows, fun a b =>
          ∑ l ∈ Finset.range Q.cols, Q.entry a l * K.entry b l⟩).entry i k * V.entry k j⟩ := by
    unfold attention_qkv
    rw [hW]
    show npDot _ V = _
    rw [npDot_ok _ V hv.symm]
    rfl
  exact ⟨_, _, hW, hA, rfl, rfl, fun i j => rfl⟩

/-- Witness for C5 at queries = keys = values = the 1 x 1 zero matrix. -/
theorem attention_qkv_is_weighted_combination_witness :
    ∃ W A, calculate_weights ⟨1, 1, fun _ _ => 0⟩ ⟨1, 1, fun _ _ => 0⟩ = .ok W ∧
      attention_qkv ⟨1, 1, fun _ _ => 0⟩ ⟨1, 1, fun _ _ => 0⟩ ⟨1, 1, fun _ _ => 0⟩ = .ok A ∧
      A.rows = 1 ∧ A.cols = 1 ∧
      (∀ i j, A.entry i j =
        ∑ k ∈ Finset.range 1, W.entry i k * NpMat.entry ⟨1, 1, fun _ _ => 0⟩ k j) :=
  attention_qkv_is_weighted_combination ⟨1, 1, fun _ _ => 0⟩ ⟨1, 1, fun _ _ => 0⟩
    ⟨1, 1, fun _ _ => 0⟩ rfl (by decide) (by decide) rfl

/-- C6: with a single query row and a single key/value row (any feature
dimensions at least 1), calculate_weights returns exactly the 1 x 1 matrix
with entry 1, and attention_qkv returns a 1 x e matrix equal to the single
value row. -/
theorem single_query_single_key (Q K V : NpMat)
    (hq : Q.rows = 1) (hk : K.rows = 1) (hv : V.rows = 1)
    (hd : Q.cols = K.cols) (hdc : 1 ≤ Q.cols) (hec : 1 ≤ V.cols) :
    ∃ W A, calculate_weights Q K = .ok W ∧ W.rows = 1 ∧ W.cols = 1 ∧ W.entry 0 0 = 1 ∧
      attention_qkv Q K V = .ok A ∧ A.rows = 1 ∧ A.cols = V.cols ∧
      (∀ j, j < V.cols → A.entry 0 j = V.entry 0 j) := by
  have hW := calculate_weights_eq Q K hd (by omega) (by omega)
  have hW00 : (softmax ⟨Q.rows, K.rows, fun a b =>
      ∑ l ∈ Finset.range Q.cols, Q.entry a l * K.entry b l⟩).entry 0 0 = 1 := by
    show Real.exp (∑ l ∈ Finset.range Q.cols, Q.entry 0 l * K.entry 0 l) /
        ∑ k ∈ Finset.range K.rows,
          Real.exp (∑ l ∈ Finset.range Q.cols, Q.entry 0 l * K.entry k l) = 1
    rw [hk, Finset.sum_range_one]
    exact div_self (Real.exp_ne_zero _)
  have hA : attention_qkv Q K V = .ok ⟨Q.rows, V.cols, fun i j =>
      ∑ k ∈ Finset.range K.rows,
        (softmax ⟨Q.rows, K.rows, fun a b =>
          ∑ l ∈ Finset.range Q.cols, Q.entry a l * K.entry b l⟩).entry i k * V.entry k j⟩ := by
    unfold attention_qkv
    rw [hW]
    show npDot _ V = _
    rw [npDot_ok _ V (show K.rows = V.rows by omega)]
    rfl
  refine ⟨_, _, hW, hq, hk, hW00, hA, hq, rfl, ?_⟩
  intro j hj
  show (∑ k ∈ Finset.range K.rows,
      (softmax ⟨Q.rows, K.rows, fun a b =>
        ∑ l ∈ Finset.range Q.cols, Q.entry a l * K.entry b l⟩).entry 0 k * V.entry k j)
      = V.entry 0 j
  set W0 := softmax ⟨Q.rows, K.rows, fun a b =>
    ∑ l ∈ Finset.range Q.cols, Q.entry a l * K.entry b l⟩
  rw [hk, Finset.sum_range_one, hW00, one_mul]

/-- Witness for C6 at concrete 1 x 2 queries/keys and a 1 x 3 values row. -/
theorem single_query_single_key_witness :
    ∃ W A, calculate_weights ⟨1, 2, fun _ _ => 5⟩ ⟨1, 2, fun _ _ => 3⟩ = .ok W ∧
      W.rows = 1 ∧ W.cols = 1 ∧ W.entry 0 0 = 1 ∧
      attention_qkv ⟨1, 2, fun _ _ => 5⟩ ⟨1, 2, fun _ _ => 3⟩ ⟨1, 3, fun _ _ => 7⟩ = .ok A ∧
      A.rows = 1 ∧ A.cols = 3 ∧
      (∀ j, j < 3 → A.entry 0 j = NpMat.entry ⟨1, 3, fun _ _ => 7⟩ 0 j) :=
  single_query_single_key ⟨1, 2, fun _ _ => 5⟩ ⟨1, 2, fun _ _ => 3⟩ ⟨1, 3, fun _ _ => 7⟩
    rfl rfl rfl rfl (by decide) (by decide)

/-- Query matrix of the scale-invariance check: a single query of feature
dimension 1 with value 1. -/
noncomputable def Qsc : NpMat := ⟨1, 1, fun _ _ => 1⟩

/-- Key matrix of the scale-invariance check: two keys of feature dimension
1, the first 1 and the second 0. -/
noncomputable def Ksc : NpMat := ⟨2, 1, fun i _ => if i = 0 then 1 else 0⟩

/-- C7: the weights are not invariant under scaling both inputs by the same
positive constant: doubling every entry of Qsc and Ksc changes the result
of calculate_weights (the dot products go from scores 1, 0 to scores 4, 0,
and the softmax weight values move). -/
theorem weights_not_scale_invariant :
    calculate_weights (NpMat.smul 2 Qsc) (NpMat.smul 2 Ksc) ≠ calculate_weights Qsc Ksc := by
  have h1 := calculate_weights_eq (NpMat.smul 2 Qsc) (NpMat.smul 2 Ksc) rfl
    (by decide) (by decide)
  have h2 := calculate_weights_eq Qsc Ksc rfl (by decide) (by decide)
  rw [h1, h2]
  intro h
  have h3 := congrArg (fun r => match r with | .ok M => NpMat.entry M 0 0 | .error _ => 0) h
  simp only [] at h3
  have e1 : (softmax ⟨(NpMat.smul 2 Qsc).rows, (NpMat.smul 2 Ksc).rows, fun i j =>
      ∑ k ∈ Finset.range (NpMat.smul 2 Qsc).cols,
        (NpMat.smul 2 Qsc).entry i k * (NpMat.smul 2 Ksc).entry j k⟩).entry 0 0
      = Real.exp 4 / (Real.exp 4 + 1) := by
    show Real.exp (∑ k ∈ Finset.range (NpMat.smul 2 Qsc).cols,
        (NpMat.smul 2 Qsc).entry 0 k * (NpMat.smul 2 Ksc).entry 0 k) /
      ∑ j ∈ Finset.range (NpMat.smul 2 Ksc).rows,
        Real.exp (∑ k ∈ Finset.range (NpMat.smul 2 Qsc).cols,
          (NpMat.smul 2 Qsc).entry 0 k * (NpMat.smul 2 Ksc).entry j k)
      = Real.exp 4 / (Real.exp 4 + 1)
    norm_num [NpMat.smul, Qsc, Ksc, Finset.sum_range_succ, Real.exp_zero]
  have e2 : (softmax ⟨Qsc.rows, Ksc.rows, fun i j =>
      ∑ k ∈ Finset.range Qsc.cols, Qsc.entry i k * Ksc.entry j k⟩).entry 0 0
      = Real.exp 1 / (Real.exp 1 + 1) := by
    show Real.exp (∑ k ∈ Finset.range Qsc.cols, Qsc.entry 0 k * Ksc.entry 0 k) /
      ∑ j ∈ Finset.range Ksc.rows,
        Real.exp (∑ k ∈ Finset.range Qsc.cols, Qsc.entry 0 k * Ksc.entry j k)
      = Real.exp 1 / (Real.exp 1 + 1)
    norm_num [Qsc, Ksc, Finset.sum_range_succ, Real.exp_zero]
  rw [e1, e2] at h3
  exact exp_frac_ne (by norm_num : (4:ℝ) ≠ 1) h3

/-- Query matrix of the scaling countercheck for C1: one query of feature
dimension 4, all entries 1. -/
noncomputable def Qc1 : NpMat := ⟨1, 4, fun _ _ => 1⟩

/-- Key matrix of the scaling countercheck for C1: two keys of feature
dimension 4, the first all ones and the second all zeros. -/
noncomputable def Kc1 : NpMat := ⟨2, 4, fun i _ => if i = 0 then 1 else 0⟩

/-- C1 (code bug evidence): on Qc1 and Kc1 the executed lab
calculate_weights softmaxes the raw scores 4, 0 (weight exp 4/(exp 4 + 1)),
while the spec formula softmax((Q Kᵀ)/sqrt 4) — which the reference-solution
calculate_weights computes exactly — softmaxes the scaled scores 2, 0
(weight exp 2/(exp 2 + 1)); the two disagree, so the executed code omits the
division by sqrt d that the claim states. -/
theorem calculate_weights_omits_sqrt_scaling :
    ∃ W, calculate_weights Qc1 Kc1 = .ok W ∧
      W.entry 0 0 = Real.exp 4 / (Real.exp 4 + 1) ∧
      calculate_weights_sol Qc1 Kc1 = .ok (specWeights Qc1 Kc1) ∧
      (specWeights Qc1 Kc1).entry 0 0 = Real.exp 2 / (Real.exp 2 + 1) ∧
      W.entry 0 0 ≠ (specWeights Qc1 Kc1).entry 0 0 := by
  have hW := calculate_weights_eq Qc1 Kc1 rfl (by decide) (by decide)
  have hsol := calculate_weights_sol_eq Qc1 Kc1 rfl (by decide) (by decide)
  have e1 : (softmax ⟨Qc1.rows, Kc1.rows, fun i j =>
      ∑ k ∈ Finset.range Qc1.cols, Qc1.entry i k * Kc1.entry j k⟩).entry 0 0
      = Real.exp 4 / (Real.exp 4 + 1) := by
    show Real.exp (∑ k ∈ Finset.range Qc1.cols, Qc1.entry 0 k * Kc1.entry 0 k) /
        ∑ j ∈ Finset.range Kc1.rows,
          Real.exp (∑ k ∈ Finset.range Qc1.cols, Qc1.entry 0 k * Kc1.entry j k)
        = Real.exp 4 / (Real.exp 4 + 1)
    norm_num [Qc1, Kc1, Finset.sum_range_succ, Real.exp_zero]
  have e2 : (specWeights Qc1 Kc1).entry 0 0 = Real.exp 2 / (Real.exp 2 + 1) := by
    show Real.exp ((∑ l ∈ Finset.range Qc1.cols, Qc1.entry 0 l * Kc1.entry 0 l) /
          Real.sqrt Qc1.cols) /
        ∑ k ∈ Finset.range Kc1.rows,
          Real.exp ((∑ l ∈ Finset.range Qc1.cols, Qc1.entry 0 l * Kc1.entry k l) /
            Real.sqrt Qc1.cols)
        = Real.exp 2 / (Real.exp 2 + 1)
    have h4 : ((NpMat.cols Qc1 : ℕ) : ℝ) = 4 := by norm_num [Qc1]
    norm_num [Qc1, Kc1, Finset.sum_range_succ, Real.exp_zero, h4, sqrt_four]
  refine ⟨_, hW, e1, hsol, e2, ?_⟩
  rw [e1, e2]
  exact exp_frac_ne (by norm_num : (4:ℝ) ≠ 2)

/-- Query/key matrix of the overflow check for C4: a single feature of
value 200, so the raw dot-product score is 200 * 200 = 40000. -/
noncomputable def Qbig : NpMat := ⟨1, 1, fun _ _ => 200⟩

/-- The float64 exp overflow threshold: np.exp(x) is inf for x above about
709.783; the exercise notebook softmax puts raw scores straight into
np.exp, so any score beyond this bound becomes inf and the normalised
weight inf/inf becomes NaN in float64 arithmetic. -/
noncomputable def float64ExpOverflowBound : ℝ := 709.78

/-- C4 (code bug evidence): with queries = keys = Qbig the scaled score is
40000 (order 1e4, as in the claim), and the softmax of the scaled score
matrix — the exact computation of the reference solution, and of the lab
cell up to the absent scaling — evaluates exp at 40000 itself, far above
the float64 overflow bound: no row-maximum is subtracted anywhere, so in
float64 the weight becomes inf/inf, i.e. NaN. -/
theorem softmax_exponentiates_raw_scores :
    ∃ S, npDot Qbig (NpMat.T Qbig) = .ok S ∧
      S.entry 0 0 / Real.sqrt (Qbig.cols : ℝ) = 40000 ∧
      (softmax (npDivScalar S (Real.sqrt (Qbig.cols : ℝ)))).entry 0 0 =
        Real.exp 40000 / Real.exp 40000 ∧
      float64ExpOverflowBound < 40000 := by
  refine ⟨_, npDot_ok Qbig (NpMat.T Qbig) rfl, ?_, ?_, ?_⟩
  · show (∑ k ∈ Finset.range Qbig.cols, Qbig.entry 0 k * (NpMat.T Qbig).entry k 0) /
        Real.sqrt (Qbig.cols : ℝ) = 40000
    norm_num [Qbig, NpMat.T, Finset.sum_range_succ, Real.sqrt_one]
  · show Real.exp ((∑ k ∈ Finset.range Qbig.cols, Qbig.entry 0 k * (NpMat.T Qbig).entry k 0) /
          Real.sqrt (Qbig.cols : ℝ)) /
        ∑ j ∈ Finset.range (NpMat.T Qbig).cols,
          Real.exp ((∑ k ∈ Finset.range Qbig.cols, Qbig.entry 0 k * (NpMat.T Qbig).entry k j) /
            Real.sqrt (Qbig.cols : ℝ))
        = Real.exp 40000 / Real.exp 40000
    norm_num [Qbig, NpMat.T, Finset.sum_range_succ, Real.sqrt_one]
  · show float64ExpOverflowBound < (40000:ℝ)
    norm_num [float64ExpOverflowBound]

theorem lowerChar_idem (c : Char) : lowerChar (lowerChar c) = lowerChar c := by
  by_cases h1 : c = 'A'; · subst h1; decide
  by_cases h2 : c = 'B'; · subst h2; decide
  by_cases h3 : c = 'C'; · subst h3; decide
  by_cases h4 : c = 'D'; · subst h4; decide
  by_cases h5 : c = 'E'; · subst h5; decide
  by_cases h6 : c = 'F'; · subst h6; decide
  by_cases h7 : c = 'G'; · subst h7; decide
  by_cases h8 : c = 'H'; · subst h8; decide
  by_cases h9 : c = 'I'; · subst h9; decide
  by_cases h10 : c = 'J'; · subst h10; decide
  by_cases h11 : c = 'K'; · subst h11; decide
  by_cases h12 : c = 'L'; · subst h12; decide
  by_cases h13 : c = 'M'; · subst h13; decide
  by_cases h14 : c = 'N'; · subst h14; decide
  by_cases h15 : c = 'O'; · subst h15; decide
  by_cases h16 : c = 'P'; · subst h16; decide
  by_cases h17 : c = 'Q'; · subst h17; decide
  by_cases h18 : c = 'R'; · subst h18; decide
  by_cases h19 : c = 'S'; · subst h19; decide
  by_cases h20 : c = 'T'; · subst h20; decide
  by_cases h21 : c = 'U'; · subst h21; decide
  by_cases h22 : c = 'V'; · subst h22; decide
  by_cases h23 : c = 'W'; · subst h23; decide
  by_cases h24 : c = 'X'; · subst h24; decide
  by_cases h25 : c = 'Y'; · subst h25; decide
  by_cases h26 : c = 'Z'; · subst h26; decide
  have hc : lowerChar c = c := by
    simp [lowerChar, h1, h2, h3, h4, h5, h6, h7, h8, h9, h10, h11, h12, h13, h14,
      h15, h16, h17, h18, h19, h20, h21, h22, h23, h24, h25, h26]
  rw [hc]
  exact hc

theorem pyLower_idem (s : String) : pyLower (pyLower s) = pyLower s := by
  unfold pyLower
  apply congrArg
  show (s.data.map lowerChar).map lowerChar = s.data.map lowerChar
  rw [List.map_map]
  exact List.map_congr_left fun c _ => lowerChar_idem c

/-- C8: tokenize turns every word of the (lowercased, space-split) sentence
that the vocabulary mapping lacks into the sentinel -1, raising no error;
and embed turns every sentinel -1 in a token list into an all-zero row
whose length is the embedding matrix's column count. -/
theorem tokenize_embed_unknown :
    (∀ (s : String) (m : List (String × ℤ)) (i : ℕ)
      (h : i < (pySplit (pyLower s)).length),
      m.lookup ((pySplit (pyLower s)).get ⟨i, h⟩) = none →
      (tokenize s m)[i]? = some (-1)) ∧
    (∀ (tokens : List ℤ) (E : NpMat) (i : ℕ),
      tokens.all (tokenValid E.rows) = true → tokens[i]? = some (-1) →
      ∃ M, embed tokens E = .ok M ∧ M.rows = tokens.length ∧ M.cols = E.cols ∧
        ∀ j, M.entry i j = 0) := by
  constructor
  · intro s m i h hlook
    unfold tokenize
    rw [List.getElem?_map, List.getElem?_eq_getElem h]
    show some (match m.lookup ((pySplit (pyLower s)).get ⟨i, h⟩) with
      | some tok => tok
      | none => -1) = some (-1)
    rw [hlook]
  · intro tokens E i hall hget
    have hM : embed tokens E = .ok ⟨tokens.length, E.cols, fun a b =>
        match tokens[a]? with
        | some u => if u = -1 then 0 else E.entry (wrapIdx E.rows u) b
        | none => 0⟩ := by
      unfold embed
      rw [if_pos hall]
    refine ⟨_, hM, rfl, rfl, ?_⟩
    intro j
    show (match tokens[i]? with
      | some u => if u = -1 then 0 else E.entry (wrapIdx E.rows u) j
      | none => 0) = (0 : ℝ)
    rw [hget]
    simp

/-- Witness for C8: in the sentence Hello w0rld with a vocabulary holding
only hello, the second word tokenizes to -1, and embedding the resulting
token list gives a zero second row. -/
theorem tokenize_embed_unknown_witness :
    (tokenize "Hello w0rld" [("hello", 5)])[1]? = some (-1) ∧
    ∃ M, embed [(5 : ℤ), -1] ⟨6, 2, fun _ _ => 0⟩ = .ok M ∧ M.rows = 2 ∧ M.cols = 2 ∧
      ∀ j, M.entry 1 j = 0 :=
  ⟨tokenize_embed_unknown.1 "Hello w0rld" [("hello", 5)] 1 (by decide) (by decide),
   tokenize_embed_unknown.2 [(5 : ℤ), -1] ⟨6, 2, fun _ _ => 0⟩ 1 (by decide) (by decide)⟩

/-- C9: tokenize lowercases before looking words up, so tokenizing a
sentence and tokenizing its lowercased form agree, and two sentences with
the same lowercase form produce identical token sequences. -/
theorem tokenize_case_insensitive :
    (∀ (s : String) (m : List (String × ℤ)), tokenize s m = tokenize (pyLower s) m) ∧
    (∀ (s₁ s₂ : String) (m : List (String × ℤ)),
      pyLower s₁ = pyLower s₂ → tokenize s₁ m = tokenize s₂ m) := by
  constructor
  · intro s m
    unfold tokenize
    rw [pyLower_idem]
  · intro s₁ s₂ m h
    unfold tokenize
    rw [h]

/-- Witness for C9: HeLLo World and hello world tokenize identically. -/
theorem tokenize_case_insensitive_witness :
    tokenize "HeLLo World" [("hello", 7)] = tokenize "hello world" [("hello", 7)] ∧
    tokenize "HeLLo World" [("hello", 7)] = tokenize (pyLower "HeLLo World") [("hello", 7)] :=
  ⟨tokenize_case_insensitive.2 "HeLLo World" "hello world" [("hello", 7)] (by decide),
   tokenize_case_insensitive.1 "HeLLo World" [("hello", 7)]⟩

/-- C10: embed treats only the exact value -1 as the sentinel; any other
negative token t (when the whole token list is indexable, which numpy
enforces on pain of IndexError) is used as a direct Python negative index,
so the output row is embedding row (row count + t), a wrapped-around
lookup rather than a zero row or an error. -/
theorem embed_negative_index_wraps :
    ∀ (tokens : List ℤ) (E : NpMat) (i : ℕ) (t : ℤ),
      tokens.all (tokenValid E.rows) = true → tokens[i]? = some t → t < -1 →
      ∃ M, embed tokens E = .ok M ∧ M.rows = tokens.length ∧ M.cols = E.cols ∧
        ∀ j, M.entry i j = E.entry ((E.rows : ℤ) + t).toNat j := by
  intro tokens E i t hall hget ht
  have hM : embed tokens E = .ok ⟨tokens.length, E.cols, fun a b =>
      match tokens[a]? with
      | some u => if u = -1 then 0 else E.entry (wrapIdx E.rows u) b
      | none => 0⟩ := by
    unfold embed
    rw [if_pos hall]
  refine ⟨_, hM, rfl, rfl, ?_⟩
  intro j
  show (match tokens[i]? with
    | some u => if u = -1 then 0 else E.entry (wrapIdx E.rows u) j
    | none => 0) = E.entry ((E.rows : ℤ) + t).toNat j
  rw [hget]
  show (if t = -1 then 0 else E.entry (wrapIdx E.rows t) j)
    = E.entry ((E.rows : ℤ) + t).toNat j
  rw [if_neg (by omega : ¬(t = -1))]
  unfold wrapIdx
  rw [if_pos (by omega : t < 0)]
  congr 2
  omega

/-- Witness for C10: embedding the token -2 against a 3-row embedding
matrix returns row 1 = 3 + (-2) of the matrix. -/
theorem embed_negative_index_wraps_witness :
    ∃ M, embed [(-2 : ℤ)] ⟨3, 2, fun a b => (a : ℝ) + b⟩ = .ok M ∧
      M.rows = 1 ∧ M.cols = 2 ∧
      ∀ j, M.entry 0 j = NpMat.entry ⟨3, 2, fun a b => (a : ℝ) + b⟩ (((3:ℕ) : ℤ) + (-2)).toNat j :=
  embed_negative_index_wraps [(-2 : ℤ)] ⟨3, 2, fun a b => (a : ℝ) + b⟩ 0 (-2)
    (by decide) (by decide) (by decide)

end QKV
